import Mathlib

/-!
Verification development for the AZRAEL WhatsApp group-management bot
(`src/azrael.js`, primary variant).  Strings are modelled as `List Char`,
wall-clock timestamps as `Int` milliseconds, and the mutable globals of the
script (`warnings`, `floodMap`, the in-memory `cfg.whitelist` and the files
they are persisted to) as an explicit `BotState` record threaded through the
message handler.
-/

/-- Sender identities and message bodies, as character lists. -/
abbrev Identity := List Char

/-- The canonical identity suffix appended by `normNumber` (JS `'@c.us'`). -/
def canonSuffix : List Char := "@c.us".toList

/-- The group-chat id suffix checked by the message handler (JS `'@g.us'`). -/
def gUs : List Char := "@g.us".toList

/-- `endsWithChars suf s` models JS `s.endsWith(suf)`. -/
def endsWithChars (suf s : List Char) : Bool :=
  decide (s.reverse.take suf.length = suf.reverse)

/-- JS `s.replace(/\D/g,'')`: keep only decimal digits. -/
def stripNonDigits (s : List Char) : List Char := s.filter Char.isDigit

/-- The trunk-prefix rewrite of `normNumber`: a 10-digit string starting with
`03` is rewritten to `92` followed by the digits after the leading `0`
(JS `'92' + s.slice(1)`). -/
def rewriteTrunk (s : List Char) : List Char :=
  if s.length = 10 ∧ s.take 2 = ['0', '3'] then '9' :: '2' :: s.drop 1 else s

/-- `normNumber` from src/azrael.js lines 15-20: strip non-digits, rewrite a
10-digit local number starting `03` to international `92...`, and append
`@c.us` unless already present. -/
def normNumber (n : List Char) : List Char :=
  let s := stripNonDigits n
  let s2 := rewriteTrunk s
  if endsWithChars canonSuffix s2 then s2 else s2 ++ canonSuffix

/-- `getKarachiHour` from src/azrael.js lines 81-83: the UTC hour plus 5,
with no reduction modulo 24. -/
def getKarachiHour (utcHours : Nat) : Nat := utcHours + 5

/-- The quiet-hours membership test inlined at src/azrael.js line 145:
`(start <= end) ? (hour >= start && hour < end) : (hour >= start || hour < end)`. -/
def isQuiet (hour start endH : Int) : Bool :=
  if start ≤ endH then decide (hour ≥ start) && decide (hour < endH)
  else decide (hour ≥ start) || decide (hour < endH)

/-- JS `s.replace('@c.us','')`: delete the first occurrence of `@c.us`. -/
def stripSuffixOnce : List Char → List Char
  | [] => []
  | c :: t =>
    if (c :: t).take 5 = canonSuffix then (c :: t).drop 5
    else c :: stripSuffixOnce t

/-- A warning-ledger entry (JS `{ count, lastReason }`). -/
structure WarningRecord where
  count : Nat
  lastReason : List Char
deriving DecidableEq

/-- The in-memory `warnings` object: association list keyed by identity. -/
abbrev Ledger := List (Identity × WarningRecord)

/-- Property read of the ledger object (`warnings[participantId]`). -/
def lookupW : Ledger → Identity → Option WarningRecord
  | [], _ => none
  | (k, v) :: t, i => if k = i then some v else lookupW t i

/-- Property write of the ledger object (`warnings[participantId] = r`). -/
def setW : Ledger → Identity → WarningRecord → Ledger
  | [], i, r => [(i, r)]
  | (k, v) :: t, i, r => if k = i then (i, r) :: t else (k, v) :: setW t i r

/-- The warning count recorded for an identity (0 when absent). -/
def countFor (w : Ledger) (i : Identity) : Nat :=
  match lookupW w i with
  | some r => r.count
  | none => 0

/-- The `floodMap` global: per-identity list of timestamps in milliseconds. -/
abbrev FloodMap := List (Identity × List Int)

/-- Property read of `floodMap`. -/
def lookupF : FloodMap → Identity → Option (List Int)
  | [], _ => none
  | (k, v) :: t, i => if k = i then some v else lookupF t i

/-- Property write of `floodMap`. -/
def setF : FloodMap → Identity → List Int → FloodMap
  | [], i, l => [(i, l)]
  | (k, v) :: t, i, l => if k = i then (i, l) :: t else (k, v) :: setF t i l

/-- JS `x || d` on an optional number: `undefined` and `0` are falsy. -/
def jsOrNat (o : Option Nat) (d : Nat) : Nat :=
  match o with
  | some n => if n = 0 then d else n
  | none => d

/-- JS `x || d` on an optional string: `undefined` and `''` are falsy. -/
def jsOrStr (o : Option (List Char)) (d : List Char) : List Char :=
  match o with
  | some s => if s = [] then d else s
  | none => d

/-- The flood window in milliseconds:
`(cfg.floodControl?.windowSeconds || 10) * 1000`. -/
def windowMsOf (windowSeconds : Option Nat) : Int :=
  ((jsOrNat windowSeconds 10 : Nat) : Int) * 1000

/-- `recordMessageForFlood` from src/azrael.js lines 70-78: append `now` to the
sender's window, keep only timestamps strictly newer than `now - windowMs`,
store the pruned window and return its length. -/
def recordMessageForFlood (windowSeconds : Option Nat) (fm : FloodMap)
    (userId : Identity) (now : Int) : FloodMap × Nat :=
  let old := (lookupF fm userId).getD []
  let pruned := (old ++ [now]).filter (fun t => decide (now - windowMsOf windowSeconds < t))
  (setF fm userId pruned, pruned.length)

/-- `cfg.floodControl`. -/
structure FloodCfg where
  enabled : Bool
  windowSeconds : Option Nat
  maxMessagesPerWindow : Option Nat
deriving DecidableEq

/-- `cfg.quietHours`. -/
structure QuietCfg where
  enabled : Bool
  startHourKarachi : Int
  endHourKarachi : Int
  reminderMessage : Option (List Char)
deriving DecidableEq

/-- The immutable part of the configuration snapshot `cfg`
(the mutable `cfg.whitelist` lives in `BotState`). -/
structure Config where
  owner : List Char
  botName : Option (List Char)
  warnLimit : Option Nat
  floodControl : Option FloodCfg
  quietHours : Option QuietCfg
  instantWarnOnLink : Bool
  instantWarnOnSticker : Bool
  instantWarnOnMedia : Bool
  groupRulesText : List Char
deriving DecidableEq

/-- The `OWNER` constant: `normNumber(cfg.owner)`. -/
def ownerId (cfg : Config) : Identity := normNumber cfg.owner

/-- The mutable globals of the script, plus the two files they persist to:
`warnings` and `warnings.json`, `cfg.whitelist` and the whitelist stored in
`config.json`, and `floodMap`. -/
structure BotState where
  warnings : Ledger
  warnStore : Ledger
  whitelist : List Identity
  configStore : List Identity
  floodMap : FloodMap
deriving DecidableEq

/-- Outbound effects handed to the transport collaborator. -/
inductive BotAction
  | sendText (text : List Char)
  | sendTextWithMention (text : List Char) (target : Identity)
  | warn (target : Identity) (reason : List Char)
  | setMessagesAdminsOnly (locked : Bool)
  | removeParticipant (target : Identity)
  | promoteParticipant (target : Identity)
  | demoteParticipant (target : Identity)
deriving DecidableEq

/-- `saveWarnings` (src/azrael.js lines 34-36): write the in-memory ledger to
the warnings file. -/
def saveWarnings (st : BotState) : BotState := { st with warnStore := st.warnings }

/-- Startup load of `warnings.json` (src/azrael.js lines 28-32): replace the
in-memory ledger with the persisted one. -/
def loadWarnings (st : BotState) : BotState := { st with warnings := st.warnStore }

/-- Decimal rendering of a count, for interpolated message texts. -/
def natChars (n : Nat) : List Char := (Nat.repr n).toList

/-- JS string interpolation of `cfg.warnLimit` (prints `undefined` if absent). -/
def showWarnLimit (o : Option Nat) : List Char :=
  match o with
  | some n => natChars n
  | none => "undefined".toList

/-- The per-warning report text sent by `addWarning`. -/
def warnReportText (cfg : Config) (cnt : Nat) (participantId : Identity)
    (reason : List Char) : List Char :=
  "⚠️ Warning ".toList ++ natChars cnt ++ "/".toList ++ showWarnLimit cfg.warnLimit ++
    " — @".toList ++ stripSuffixOnce participantId ++ "\nReason: ".toList ++ reason

/-- The escalation text sent by `addWarning` once the limit is reached. -/
def limitReachedText (participantId : Identity) : List Char :=
  "🚫 User ".toList ++ stripSuffixOnce participantId ++
    " reached warning limit. Consider taking action.".toList

/-- The spam notice of the flood-control block. -/
def spamText : List Char := "⚠️ Please avoid spamming.".toList

/-- The reason string of flood-control warnings. -/
def floodReason : List Char := "Flooding messages".toList

/-- `addWarning` from src/azrael.js lines 46-67.  The filesystem write inside
`saveWarnings` is modelled by the `persistOk` flag: the in-memory increment
happens first; when the write throws (`persistOk = false`) the exception
propagates, so the chat messages after the write are not sent, but the
increment survives.  The `BotAction.warn` marker records the warning decision
itself. -/
def addWarning (cfg : Config) (persistOk : Bool) (st : BotState)
    (participantId : Identity) (reason : List Char) : BotState × List BotAction :=
  let prev := (lookupW st.warnings participantId).getD ⟨0, []⟩
  let newRec : WarningRecord := ⟨prev.count + 1, reason⟩
  let w2 := setW st.warnings participantId newRec
  if persistOk then
    let cnt := newRec.count
    ({ st with warnings := w2, warnStore := w2 },
      [BotAction.warn participantId reason,
       BotAction.sendTextWithMention (warnReportText cfg cnt participantId reason) participantId] ++
      (if cnt ≥ jsOrNat cfg.warnLimit 3 then [BotAction.sendText (limitReachedText participantId)] else []))
  else
    ({ st with warnings := w2 }, [BotAction.warn participantId reason])

/-- An inbound message event as consumed by the `client.on('message')`
handler (`msg.from` is spelled `mFrom`: `from` is reserved in Lean). -/
structure Msg where
  mFrom : List Char
  author : Option (List Char)
  body : List Char
  mtype : List Char
  hasMedia : Bool
deriving DecidableEq

/-- `const senderId = msg.author || msg.from`. -/
def senderOf (msg : Msg) : Identity := jsOrStr msg.author msg.mFrom

/-- JS `String.prototype.trim`. -/
def trim (s : List Char) : List Char :=
  ((s.dropWhile Char.isWhitespace).reverse.dropWhile Char.isWhitespace).reverse

/-- Accumulator recursion behind `splitWs`. -/
def splitWsAux : List Char → List Char → List (List Char)
  | [], acc => if acc = [] then [] else [acc.reverse]
  | c :: t, acc =>
    if c.isWhitespace then
      if acc = [] then splitWsAux t [] else acc.reverse :: splitWsAux t []
    else splitWsAux t (c :: acc)

/-- JS `body.split(/\s+/)` on already-trimmed input: whitespace-separated
tokens. -/
def splitWs (s : List Char) : List (List Char) := splitWsAux s []

/-- JS `String.prototype.toLowerCase` (the handler only compares ASCII). -/
def toLowerStr (s : List Char) : List Char := s.map Char.toLower

/-- `body.startsWith('!')`. -/
def startsBang : List Char → Bool
  | '!' :: _ => true
  | _ => false

/-- `s.startsWith(pat)` on char lists. -/
def startsWithChars (pat s : List Char) : Bool := decide (s.take pat.length = pat)

/-- Substring occurrence test, used to model the link regex. -/
def containsSub (pat : List Char) : List Char → Bool
  | [] => decide (pat = [])
  | c :: t => startsWithChars pat (c :: t) || containsSub pat t

/-- The link test `/(https?:\/\/|www\.)/i.test(body)`. -/
def hasLinkB (body : List Char) : Bool :=
  let b := toLowerStr body
  containsSub "http://".toList b || containsSub "https://".toList b ||
    containsSub "www.".toList b

/-- `msg.type === 'sticker'`. -/
def isStickerB (msg : Msg) : Bool := decide (msg.mtype = "sticker".toList)

/-- `msg.hasMedia && ['image','video','document','audio'].includes(msg.type)`. -/
def hasMediaB (msg : Msg) : Bool :=
  msg.hasMedia &&
    decide (msg.mtype ∈ ["image".toList, "video".toList, "document".toList, "audio".toList])

/-- Reason string of the link trigger. -/
def linkReason : List Char := "Shared link".toList

/-- Reason string of the sticker trigger. -/
def stickerReason : List Char := "Sent sticker".toList

/-- Reason string of the media trigger. -/
def mediaReason : List Char := "Shared media".toList

/-- The flood-control block, src/azrael.js lines 131-138.  Unlike quiet hours
and the instant triggers, this block has no owner/whitelist guard.  A `some`
second component means the handler returns early with those actions. -/
def floodStage (cfg : Config) (persistOk : Bool) (st : BotState)
    (senderId : Identity) (nowMs : Int) : BotState × Option (List BotAction) :=
  match cfg.floodControl with
  | none => (st, none)
  | some fc =>
    if fc.enabled then
      let r := recordMessageForFlood fc.windowSeconds st.floodMap senderId nowMs
      let st1 := { st with floodMap := r.1 }
      if r.2 > jsOrNat fc.maxMessagesPerWindow 6 then
        let w := addWarning cfg persistOk st1 senderId floodReason
        (w.1, some (BotAction.sendText spamText :: w.2))
      else (st1, none)
    else (st, none)

/-- The default quiet-hours reminder text. -/
def defaultReminder : List Char :=
  "🔕 Quiet hours active. Please avoid sending messages.".toList

/-- The quiet-hours block, src/azrael.js lines 141-151: guarded by
`cfg.quietHours?.enabled && !whitelisted && senderId !== OWNER`. -/
def quietStage (cfg : Config) (whitelisted : Bool) (senderId : Identity)
    (utcHour : Nat) : Option BotAction :=
  match cfg.quietHours with
  | none => none
  | some q =>
    if q.enabled && !whitelisted && !(decide (senderId = ownerId cfg)) then
      let hour : Int := getKarachiHour utcHour
      if isQuiet hour q.startHourKarachi q.endHourKarachi then
        some (BotAction.sendText (jsOrStr q.reminderMessage defaultReminder))
      else none
    else none

/-- The instant-trigger block, src/azrael.js lines 158-171: first matching
sanction reason, skipped for whitelisted senders and the owner. -/
def triggerStage (cfg : Config) (whitelisted : Bool) (senderId : Identity)
    (msg : Msg) (body : List Char) : Option (List Char) :=
  if !whitelisted && !(decide (senderId = ownerId cfg)) then
    if cfg.instantWarnOnLink && hasLinkB body then some linkReason
    else if cfg.instantWarnOnSticker && isStickerB msg then some stickerReason
    else if cfg.instantWarnOnMedia && hasMediaB msg then some mediaReason
    else none
  else none

/-- `BOT_NAME = cfg.botName || 'AZRAEL'`. -/
def botNameOf (cfg : Config) : List Char := jsOrStr cfg.botName "AZRAEL".toList

/-- `parts.join(sep)`. -/
def joinSep (sep : List Char) : List (List Char) → List Char
  | [] => []
  | [x] => x
  | x :: y :: t => x ++ sep ++ joinSep sep (y :: t)

/-- The `!status` reply text. -/
def statusText (cfg : Config) (st : BotState) : List Char :=
  botNameOf cfg ++ " is online. Warnings stored: ".toList ++ natChars st.warnings.length

/-- The `!whitelist list` reply text. -/
def whitelistListText (wl : List Identity) : List Char :=
  "📋 Whitelist users:\n".toList ++
    jsOrStr (some (joinSep "\n".toList (wl.map stripSuffixOnce))) "No users in whitelist".toList

/-- The `!whitelist add` success text. -/
def addedText (num : Identity) : List Char :=
  "✅ ".toList ++ stripSuffixOnce num ++ " added to whitelist.".toList

/-- The `!whitelist add` duplicate text. -/
def alreadyText (num : Identity) : List Char :=
  "ℹ️ ".toList ++ stripSuffixOnce num ++ " is already in whitelist.".toList

/-- The `!whitelist remove` success text. -/
def removedText (num : Identity) : List Char :=
  "✅ ".toList ++ stripSuffixOnce num ++ " removed from whitelist.".toList

/-- The unknown-command help text. -/
def unknownCmdText : List Char :=
  "❌ Unknown command. Available: !rules, !status, !warnreset, !whitelist, !grouplock, !groupunlock, !kick, !ban, !makeadmin, !removeadmin, !warn".toList

/-- The owner-commands block, src/azrael.js lines 174-261.  `parts[k]` guards
model JS truthiness (an absent index is falsy; `splitWs` never yields an
empty token); filesystem writes share the `persistOk` flag, and a throwing
write skips the remaining sends of that branch. -/
def runOwnerCommand (cfg : Config) (persistOk : Bool) (st : BotState)
    (body : List Char) : BotState × List BotAction :=
  let parts := splitWs body
  let cmd := toLowerStr (parts.headD [])
  if cmd = "!rules".toList then
    (st, [BotAction.sendText cfg.groupRulesText])
  else if cmd = "!status".toList then
    (st, [BotAction.sendText (statusText cfg st)])
  else if cmd = "!warnreset".toList then
    if persistOk then
      ({ st with warnings := [], warnStore := [] },
        [BotAction.sendText "✅ All warnings cleared.".toList])
    else ({ st with warnings := [] }, [])
  else if cmd = "!whitelist".toList ∧ (parts.get? 1).isSome then
    let sub := toLowerStr ((parts.get? 1).getD [])
    if sub = "add".toList ∧ (parts.get? 2).isSome then
      let num := normNumber ((parts.get? 2).getD [])
      if num ∈ st.whitelist then (st, [BotAction.sendText (alreadyText num)])
      else
        let wl := st.whitelist ++ [num]
        if persistOk then
          ({ st with whitelist := wl, configStore := wl },
            [BotAction.sendText (addedText num)])
        else ({ st with whitelist := wl }, [])
    else if sub = "remove".toList ∧ (parts.get? 2).isSome then
      let num := normNumber ((parts.get? 2).getD [])
      let wl := st.whitelist.filter (fun w => decide (w ≠ num))
      if persistOk then
        ({ st with whitelist := wl, configStore := wl },
          [BotAction.sendText (removedText num)])
      else ({ st with whitelist := wl }, [])
    else if sub = "list".toList then
      (st, [BotAction.sendText (whitelistListText st.whitelist)])
    else (st, [BotAction.sendText "Usage: !whitelist add/remove/list <number>".toList])
  else if cmd = "!grouplock".toList then
    (st, [BotAction.setMessagesAdminsOnly true,
      BotAction.sendText "✅ Group locked — only admins can send messages.".toList])
  else if cmd = "!groupunlock".toList then
    (st, [BotAction.setMessagesAdminsOnly false,
      BotAction.sendText "✅ Group unlocked — everyone can send messages.".toList])
  else if cmd = "!kick".toList ∧ (parts.get? 1).isSome then
    (st, [BotAction.removeParticipant (normNumber ((parts.get? 1).getD [])),
      BotAction.sendText ("✅ ".toList ++ (parts.get? 1).getD [] ++ " has been kicked.".toList)])
  else if cmd = "!ban".toList ∧ (parts.get? 1).isSome then
    (st, [BotAction.removeParticipant (normNumber ((parts.get? 1).getD [])),
      BotAction.sendText ("✅ ".toList ++ (parts.get? 1).getD [] ++ " has been banned.".toList)])
  else if cmd = "!makeadmin".toList ∧ (parts.get? 1).isSome then
    (st, [BotAction.promoteParticipant (normNumber ((parts.get? 1).getD [])),
      BotAction.sendText ("✅ ".toList ++ (parts.get? 1).getD [] ++ " is now admin.".toList)])
  else if cmd = "!removeadmin".toList ∧ (parts.get? 1).isSome then
    (st, [BotAction.demoteParticipant (normNumber ((parts.get? 1).getD [])),
      BotAction.sendText ("✅ ".toList ++ (parts.get? 1).getD [] ++ " admin rights removed.".toList)])
  else if cmd = "!warn".toList ∧ (parts.get? 1).isSome then
    let target := normNumber ((parts.get? 1).getD [])
    let reason := jsOrStr (some (joinSep " ".toList (parts.drop 2))) "No reason provided".toList
    addWarning cfg persistOk st target reason
  else (st, [BotAction.sendText unknownCmdText])

/-- The `client.on('message')` handler, src/azrael.js lines 117-266: group
filter, empty-body filter, flood control, quiet hours, instant triggers,
then owner commands. -/
def handleMessage (cfg : Config) (persistOk : Bool) (st : BotState) (msg : Msg)
    (nowMs : Int) (utcHour : Nat) : BotState × List BotAction :=
  if !endsWithChars gUs msg.mFrom then (st, [])
  else
    let senderId := senderOf msg
    let body := trim msg.body
    if body = [] then (st, [])
    else
      let whitelisted := decide (senderId ∈ st.whitelist)
      match floodStage cfg persistOk st senderId nowMs with
      | (st1, some acts) => (st1, acts)
      | (st1, none) =>
        match quietStage cfg whitelisted senderId utcHour with
        | some a => (st1, [a])
        | none =>
          match triggerStage cfg whitelisted senderId msg body with
          | some reason => addWarning cfg persistOk st1 senderId reason
          | none =>
            if startsBang body && decide (senderId = ownerId cfg) then
              runOwnerCommand cfg persistOk st1 body
            else (st1, [])

/-- Fresh process state: empty ledger, empty stores, empty flood map. -/
def st0 : BotState :=
  { warnings := [], warnStore := [], whitelist := [], configStore := [], floodMap := [] }

/-- Flood-control configuration of the spec scenario:
`{windowSeconds: 10, maxMessagesPerWindow: 6}`. -/
def floodCfg6 : FloodCfg :=
  { enabled := true, windowSeconds := some 10, maxMessagesPerWindow := some 6 }

/-- Configuration for the flood scenario: flood control on, all other
moderation features off. -/
def cfgC2 : Config :=
  { owner := "923330000000".toList, botName := none, warnLimit := some 3,
    floodControl := some floodCfg6, quietHours := none,
    instantWarnOnLink := false, instantWarnOnSticker := false,
    instantWarnOnMedia := false, groupRulesText := [] }

/-- The non-whitelisted, non-owner sender of the flood scenario. -/
def senderC2 : Identity := "923001234500@c.us".toList

/-- A plain non-empty group message from that sender. -/
def msgC2 : Msg :=
  { mFrom := "1203630@g.us".toList, author := some senderC2,
    body := "hello".toList, mtype := "chat".toList, hasMedia := false }

/-- Timestamps (ms) of the first six messages, all within nine seconds of the
seventh one at 9000. -/
def timesC2 : List Int := [0, 1500, 3000, 4500, 6000, 7500]

/-- State after the first six evaluations of the flood scenario. -/
def stAfter6C2 : BotState :=
  timesC2.foldl (fun s t => (handleMessage cfgC2 true s msgC2 t 10).1) st0

/-- Result of evaluating the seventh message of the flood scenario. -/
def resC2 : BotState × List BotAction := handleMessage cfgC2 true stAfter6C2 msgC2 9000 10

/-- Configuration for the whitelist-command scenario: all moderation features
off, owner `923330000000`. -/
def cfgC9 : Config :=
  { owner := "923330000000".toList, botName := none, warnLimit := some 3,
    floodControl := none, quietHours := none,
    instantWarnOnLink := false, instantWarnOnSticker := false,
    instantWarnOnMedia := false, groupRulesText := [] }

/-- The owner's `whitelist add` command message. -/
def msgAddC9 : Msg :=
  { mFrom := "1203630@g.us".toList, author := some (ownerId cfgC9),
    body := "!whitelist add 923001234567".toList, mtype := "chat".toList,
    hasMedia := false }

/-- The owner's `whitelist list` command message. -/
def msgListC9 : Msg :=
  { mFrom := "1203630@g.us".toList, author := some (ownerId cfgC9),
    body := "!whitelist list".toList, mtype := "chat".toList, hasMedia := false }

/-- Result of evaluating the `whitelist add` command from a fresh state. -/
def resAddC9 : BotState × List BotAction := handleMessage cfgC9 true st0 msgAddC9 0 0

/-- Result of evaluating `whitelist list` afterwards. -/
def resListC9 : BotState × List BotAction := handleMessage cfgC9 true resAddC9.1 msgListC9 0 0

/-- A whitelisted sender used to refute the flood-bypass claim. -/
def wSenderC1 : Identity := "923009999999@c.us".toList

/-- State in which `wSenderC1` is whitelisted and has already sent six
messages in the last nine seconds. -/
def stC1 : BotState :=
  { st0 with
    whitelist := [wSenderC1]
    floodMap := [(wSenderC1, [0, 1500, 3000, 4500, 6000, 7500])] }

/-- The whitelisted sender's seventh message. -/
def msgC1 : Msg :=
  { mFrom := "1203630@g.us".toList, author := some wSenderC1,
    body := "hello again".toList, mtype := "chat".toList, hasMedia := false }

/-- Result of evaluating the whitelisted sender's seventh message. -/
def resC1 : BotState × List BotAction := handleMessage cfgC2 true stC1 msgC1 9000 10

/-- Bool test for the moderation `warn` marker action. -/
def isWarnAct : BotAction → Bool
  | .warn _ _ => true
  | _ => false

/-- Bool test for the administrative command actions: group lock/unlock,
participant removal, admin promotion/demotion. -/
def isCmdAct : BotAction → Bool
  | .setMessagesAdminsOnly _ => true
  | .removeParticipant _ => true
  | .promoteParticipant _ => true
  | .demoteParticipant _ => true
  | _ => false

/-- `cfg.floodControl?.enabled` is falsy. -/
def floodOff (cfg : Config) : Bool :=
  match cfg.floodControl with
  | none => true
  | some fc => !fc.enabled

/-- The window kept for an identity in a flood map. -/
def windowOf (fm : FloodMap) (i : Identity) : List Int := (lookupF fm i).getD []

lemma lookupW_setW_self (w : Ledger) (i : Identity) (r : WarningRecord) :
    lookupW (setW w i r) i = some r := by
  induction w with
  | nil => simp [setW, lookupW]
  | cons hd t ih =>
    obtain ⟨k, v⟩ := hd
    by_cases hk : k = i
    · simp [setW, hk, lookupW]
    · simp [setW, hk, lookupW, ih]

lemma lookupW_setW_ne (w : Ledger) (i j : Identity) (r : WarningRecord)
    (h : j ≠ i) : lookupW (setW w i r) j = lookupW w j := by
  induction w with
  | nil => simp [setW, lookupW, Ne.symm h]
  | cons hd t ih =>
    obtain ⟨k, v⟩ := hd
    by_cases hk : k = i
    · subst hk
      simp [setW, lookupW, Ne.symm h]
    · simp [setW, hk, lookupW, ih]

lemma lookupF_setF_self (fm : FloodMap) (i : Identity) (l : List Int) :
    lookupF (setF fm i l) i = some l := by
  induction fm with
  | nil => simp [setF, lookupF]
  | cons hd t ih =>
    obtain ⟨k, v⟩ := hd
    by_cases hk : k = i
    · simp [setF, hk, lookupF]
    · simp [setF, hk, lookupF, ih]

lemma countFor_setW_ne (w : Ledger) (i j : Identity) (r : WarningRecord)
    (h : j ≠ i) : countFor (setW w i r) j = countFor w j := by
  unfold countFor
  rw [lookupW_setW_ne w i j r h]

lemma addWarning_warnings (cfg : Config) (p : Bool) (st : BotState)
    (i : Identity) (reason : List Char) :
    (addWarning cfg p st i reason).1.warnings =
      setW st.warnings i ⟨((lookupW st.warnings i).getD ⟨0, []⟩).count + 1, reason⟩ := by
  cases p <;> rfl

lemma addWarning_whitelist (cfg : Config) (p : Bool) (st : BotState)
    (i : Identity) (reason : List Char) :
    (addWarning cfg p st i reason).1.whitelist = st.whitelist := by
  cases p <;> rfl

lemma addWarning_configStore (cfg : Config) (p : Bool) (st : BotState)
    (i : Identity) (reason : List Char) :
    (addWarning cfg p st i reason).1.configStore = st.configStore := by
  cases p <;> rfl

lemma countFor_addWarning_self (cfg : Config) (p : Bool) (st : BotState)
    (i : Identity) (reason : List Char) :
    countFor (addWarning cfg p st i reason).1.warnings i = countFor st.warnings i + 1 := by
  rw [addWarning_warnings]
  unfold countFor
  rw [lookupW_setW_self]
  cases h : lookupW st.warnings i <;> simp [h]

lemma countFor_addWarning_mono (cfg : Config) (p : Bool) (st : BotState)
    (i : Identity) (reason : List Char) (j : Identity) :
    countFor st.warnings j ≤ countFor (addWarning cfg p st i reason).1.warnings j := by
  by_cases hj : j = i
  · subst hj
    rw [countFor_addWarning_self]
    exact Nat.le_succ _
  · rw [addWarning_warnings, countFor_setW_ne _ _ _ _ hj]

lemma addWarning_acts_false (cfg : Config) (st : BotState)
    (i : Identity) (reason : List Char) :
    (addWarning cfg false st i reason).2 = [BotAction.warn i reason] := rfl

lemma addWarning_acts_true (cfg : Config) (st : BotState)
    (i : Identity) (reason : List Char) :
    (addWarning cfg true st i reason).2 =
      [BotAction.warn i reason,
       BotAction.sendTextWithMention
         (warnReportText cfg (((lookupW st.warnings i).getD ⟨0, []⟩).count + 1) i reason) i] ++
      (if ((lookupW st.warnings i).getD ⟨0, []⟩).count + 1 ≥ jsOrNat cfg.warnLimit 3 then
        [BotAction.sendText (limitReachedText i)] else []) := rfl

lemma addWarning_acts (cfg : Config) (p : Bool) (st : BotState)
    (i : Identity) (reason : List Char) :
    ∀ a ∈ (addWarning cfg p st i reason).2,
      isCmdAct a = false ∧ (isWarnAct a = true → a = BotAction.warn i reason) := by
  intro a ha
  cases p with
  | false =>
    rw [addWarning_acts_false] at ha
    simp only [List.mem_singleton] at ha
    subst ha
    exact ⟨rfl, fun _ => rfl⟩
  | true =>
    rw [addWarning_acts_true, List.mem_append] at ha
    rcases ha with h1 | h2
    · simp only [List.mem_cons, List.mem_singleton, List.not_mem_nil, or_false] at h1
      rcases h1 with h1 | h1
      · subst h1; exact ⟨rfl, fun _ => rfl⟩
      · subst h1
        exact ⟨rfl, fun hw => by simp [isWarnAct] at hw⟩
    · split at h2
      · simp only [List.mem_singleton] at h2
        subst h2
        exact ⟨rfl, fun hw => by simp [isWarnAct] at hw⟩
      · simp at h2

lemma floodStage_whitelist (cfg : Config) (p : Bool) (st : BotState)
    (sid : Identity) (now : Int) :
    (floodStage cfg p st sid now).1.whitelist = st.whitelist := by
  unfold floodStage
  cases cfg.floodControl with
  | none => rfl
  | some fc =>
    dsimp only
    split
    · split
      · rw [addWarning_whitelist]
      · rfl
    · rfl

lemma floodStage_configStore (cfg : Config) (p : Bool) (st : BotState)
    (sid : Identity) (now : Int) :
    (floodStage cfg p st sid now).1.configStore = st.configStore := by
  unfold floodStage
  cases cfg.floodControl with
  | none => rfl
  | some fc =>
    dsimp only
    split
    · split
      · rw [addWarning_configStore]
      · rfl
    · rfl

lemma floodStage_countFor_mono (cfg : Config) (p : Bool) (st : BotState)
    (sid : Identity) (now : Int) (j : Identity) :
    countFor st.warnings j ≤ countFor (floodStage cfg p st sid now).1.warnings j := by
  unfold floodStage
  cases cfg.floodControl with
  | none => exact le_refl _
  | some fc =>
    dsimp only
    split
    · split
      · exact countFor_addWarning_mono cfg p
          ⟨st.warnings, st.warnStore, st.whitelist, st.configStore,
            (recordMessageForFlood fc.windowSeconds st.floodMap sid now).1⟩ sid floodReason j
      · exact le_refl _
    · exact le_refl _

lemma floodStage_acts (cfg : Config) (p : Bool) (st : BotState)
    (sid : Identity) (now : Int) :
    ∀ acts, (floodStage cfg p st sid now).2 = some acts →
      ∀ a ∈ acts, isCmdAct a = false ∧ (isWarnAct a = true → a = BotAction.warn sid floodReason) := by
  intro acts hacts a ha
  unfold floodStage at hacts
  split at hacts
  · simp at hacts
  · dsimp only at hacts
    split at hacts
    · split at hacts
      · simp only [Prod.snd, Option.some.injEq] at hacts
        subst hacts
        rcases List.mem_cons.mp ha with h1 | h1
        · subst h1
          exact ⟨rfl, fun hw => by simp [isWarnAct] at hw⟩
        · exact addWarning_acts _ _ _ _ _ a h1
      · simp at hacts
    · simp at hacts

lemma floodStage_off (cfg : Config) (p : Bool) (st : BotState)
    (sid : Identity) (now : Int) (h : floodOff cfg = true) :
    floodStage cfg p st sid now = (st, none) := by
  unfold floodOff at h
  unfold floodStage
  cases hc : cfg.floodControl with
  | none => rfl
  | some fc =>
    rw [hc] at h
    simp only [Bool.not_eq_true'] at h
    dsimp only
    rw [h]
    rfl

lemma quietStage_whitelisted (cfg : Config) (sid : Identity) (utc : Nat) :
    quietStage cfg true sid utc = none := by
  unfold quietStage
  cases cfg.quietHours with
  | none => rfl
  | some q => simp

lemma quietStage_owner (cfg : Config) (w : Bool) (utc : Nat) :
    quietStage cfg w (ownerId cfg) utc = none := by
  unfold quietStage
  cases cfg.quietHours with
  | none => rfl
  | some q => simp

lemma quietStage_shape (cfg : Config) (w : Bool) (sid : Identity) (utc : Nat)
    (a : BotAction) (h : quietStage cfg w sid utc = some a) :
    isCmdAct a = false ∧ isWarnAct a = false := by
  unfold quietStage at h
  split at h
  · simp at h
  · split at h
    · dsimp only at h
      split at h
      · injection h with h
        subst h
        exact ⟨rfl, rfl⟩
      · simp at h
    · simp at h

lemma triggerStage_whitelisted (cfg : Config) (sid : Identity) (msg : Msg)
    (body : List Char) : triggerStage cfg true sid msg body = none := by
  unfold triggerStage
  simp

lemma triggerStage_owner (cfg : Config) (w : Bool) (msg : Msg)
    (body : List Char) : triggerStage cfg w (ownerId cfg) msg body = none := by
  unfold triggerStage
  simp

/-- Claim C4: a message whose sender is not the owner never reaches the
command handlers: the whitelist (in memory and persisted) is unchanged, no
warning count ever decreases (so no ledger reset happens), and the emitted
actions contain no group lock/unlock, participant removal, or admin
promotion/demotion; the event just flows through the normal moderation
stages. -/
theorem nonOwnerCommandsIgnored (cfg : Config) (persistOk : Bool) (st : BotState)
    (msg : Msg) (nowMs : Int) (utcHour : Nat) (h : senderOf msg ≠ ownerId cfg) :
    (handleMessage cfg persistOk st msg nowMs utcHour).1.whitelist = st.whitelist ∧
    (handleMessage cfg persistOk st msg nowMs utcHour).1.configStore = st.configStore ∧
    (∀ j, countFor st.warnings j ≤
      countFor (handleMessage cfg persistOk st msg nowMs utcHour).1.warnings j) ∧
    (∀ a ∈ (handleMessage cfg persistOk st msg nowMs utcHour).2, isCmdAct a = false) := by
  unfold handleMessage
  split
  · exact ⟨rfl, rfl, fun j => le_refl _, by intro a ha; simp at ha⟩
  · dsimp only
    split
    · exact ⟨rfl, rfl, fun j => le_refl _, by intro a ha; simp at ha⟩
    · rcases hfs : floodStage cfg persistOk st (senderOf msg) nowMs with ⟨st1, oacts⟩
      have hwl : st1.whitelist = st.whitelist := by
        have hx := floodStage_whitelist cfg persistOk st (senderOf msg) nowMs
        rw [hfs] at hx
        exact hx
      have hcs : st1.configStore = st.configStore := by
        have hx := floodStage_configStore cfg persistOk st (senderOf msg) nowMs
        rw [hfs] at hx
        exact hx
      have hmono : ∀ j, countFor st.warnings j ≤ countFor st1.warnings j := by
        intro j
        have hx := floodStage_countFor_mono cfg persistOk st (senderOf msg) nowMs j
        rw [hfs] at hx
        exact hx
      cases oacts with
      | some acts =>
        dsimp only
        refine ⟨hwl, hcs, hmono, ?_⟩
        intro a ha
        have h2 : (floodStage cfg persistOk st (senderOf msg) nowMs).2 = some acts := by
          rw [hfs]
        exact (floodStage_acts cfg persistOk st (senderOf msg) nowMs acts h2 a ha).1
      | none =>
        dsimp only
        cases hq : quietStage cfg (decide (senderOf msg ∈ st.whitelist)) (senderOf msg) utcHour with
        | some a0 =>
          dsimp only
          refine ⟨hwl, hcs, hmono, ?_⟩
          intro a ha
          simp only [List.mem_singleton] at ha
          subst ha
          exact (quietStage_shape _ _ _ _ _ hq).1
        | none =>
          dsimp only
          cases ht : triggerStage cfg (decide (senderOf msg ∈ st.whitelist)) (senderOf msg)
              msg (trim msg.body) with
          | some reason =>
            dsimp only
            refine ⟨?_, ?_, ?_, ?_⟩
            · rw [addWarning_whitelist]
              exact hwl
            · rw [addWarning_configStore]
              exact hcs
            · intro j
              exact le_trans (hmono j) (countFor_addWarning_mono _ _ _ _ _ j)
            · intro a ha
              exact (addWarning_acts _ _ _ _ _ a ha).1
          | none =>
            dsimp only
            split
            · next hcond =>
              have hb : decide (senderOf msg = ownerId cfg) = false := by simp [h]
              rw [hb, Bool.and_false] at hcond
              exact absurd hcond Bool.false_ne_true
            · exact ⟨hwl, hcs, hmono, by intro a ha; simp at ha⟩

/-- Claim C1 (amended): for a sender that is whitelisted or is the owner, the
quiet-hours stage and the instant-trigger stage are skipped, so as long as
the event is not an owner command, the only `warn` the pipeline can emit for
it is the flood-control `Warn("Flooding messages")` — flood control itself is
NOT bypassed for such senders — and with flood control disabled no warn is
emitted at all. -/
theorem ownerWhitelistWarnOnlyFlood (cfg : Config) (persistOk : Bool) (st : BotState)
    (msg : Msg) (nowMs : Int) (utcHour : Nat)
    (hw : senderOf msg ∈ st.whitelist ∨ senderOf msg = ownerId cfg)
    (hnc : ¬(startsBang (trim msg.body) = true ∧ senderOf msg = ownerId cfg)) :
    (∀ a ∈ (handleMessage cfg persistOk st msg nowMs utcHour).2,
        isWarnAct a = true → a = BotAction.warn (senderOf msg) floodReason) ∧
    (floodOff cfg = true →
      ∀ a ∈ (handleMessage cfg persistOk st msg nowMs utcHour).2, isWarnAct a = false) := by
  unfold handleMessage
  split
  · exact ⟨by intro a ha; simp at ha, by intro _ a ha; simp at ha⟩
  · dsimp only
    split
    · exact ⟨by intro a ha; simp at ha, by intro _ a ha; simp at ha⟩
    · rcases hfs : floodStage cfg persistOk st (senderOf msg) nowMs with ⟨st1, oacts⟩
      cases oacts with
      | some acts =>
        dsimp only
        constructor
        · intro a ha hwarn
          have h2 : (floodStage cfg persistOk st (senderOf msg) nowMs).2 = some acts := by
            rw [hfs]
          exact (floodStage_acts cfg persistOk st (senderOf msg) nowMs acts h2 a ha).2 hwarn
        · intro hoff
          have hx := floodStage_off cfg persistOk st (senderOf msg) nowMs hoff
          rw [hfs] at hx
          simp at hx
      | none =>
        dsimp only
        have hqnone : quietStage cfg (decide (senderOf msg ∈ st.whitelist))
            (senderOf msg) utcHour = none := by
          rcases hw with hw1 | hw2
          · rw [decide_eq_true hw1]
            exact quietStage_whitelisted cfg (senderOf msg) utcHour
          · rw [hw2]
            exact quietStage_owner cfg _ utcHour
        have htnone : triggerStage cfg (decide (senderOf msg ∈ st.whitelist))
            (senderOf msg) msg (trim msg.body) = none := by
          rcases hw with hw1 | hw2
          · rw [decide_eq_true hw1]
            exact triggerStage_whitelisted cfg (senderOf msg) msg (trim msg.body)
          · rw [hw2]
            exact triggerStage_owner cfg _ msg (trim msg.body)
        rw [hqnone]
        dsimp only
        rw [htnone]
        dsimp only
        split
        · next hcond =>
          rw [Bool.and_eq_true] at hcond
          obtain ⟨hsb, hown⟩ := hcond
          exact absurd ⟨hsb, of_decide_eq_true hown⟩ hnc
        · exact ⟨by intro a ha; simp at ha, by intro _ a ha; simp at ha⟩

/-- Claim C1 (counterexample): a whitelisted sender whose seventh message
within nine seconds is evaluated under `floodControl {windowSeconds 10,
maxMessagesPerWindow 6}` does receive a `warn` — the flood-control block at
src/azrael.js lines 131-138 has no owner/whitelist guard, refuting the claim
that whitelisted identities never get a Warn. -/
theorem whitelistFloodWarnCounterexample :
    wSenderC1 ∈ stC1.whitelist ∧
    BotAction.warn wSenderC1 floodReason ∈ resC1.2 := ⟨by decide, by decide⟩

/-- Claim C2: with `floodControl {windowSeconds 10, maxMessagesPerWindow 6}`,
a non-whitelisted non-owner sender's seventh non-empty group message within
nine seconds yields exactly the spam notice, `Warn("Flooding messages")` and
its report — no further stage runs — and the sender's ledger count becomes
1. -/
theorem floodSeventhMessageWarns :
    senderC2 ∉ st0.whitelist ∧ senderC2 ≠ ownerId cfgC2 ∧
    resC2.2 = [BotAction.sendText spamText, BotAction.warn senderC2 floodReason,
      BotAction.sendTextWithMention (warnReportText cfgC2 1 senderC2 floodReason) senderC2] ∧
    countFor resC2.1.warnings senderC2 = 1 :=
  ⟨by decide, by decide, by decide, by decide⟩

/-- Claim C3: each `addWarning` call increases the sender's ledger count by
exactly one, immediately visible to a read of that count, and the
persist-then-reload round trip (simulated restart) leaves every identity's
count unchanged. -/
theorem addWarningIncrementRoundTrip (cfg : Config) (st : BotState)
    (i : Identity) (reason : List Char) :
    countFor (addWarning cfg true st i reason).1.warnings i = countFor st.warnings i + 1 ∧
    (∀ (st2 : BotState) (j : Identity),
      countFor (loadWarnings (saveWarnings st2)).warnings j = countFor st2.warnings j) :=
  ⟨countFor_addWarning_self cfg true st i reason, fun _ _ => rfl⟩

/-- Claim C5: the quiet-hours predicate holds exactly on the half-open
interval when `start ≤ end` and on the wrap-around union when `start > end`,
and takes the spec's concrete values at 23/6/10 for 22-6 and 3/6 for 1-5. -/
theorem isQuietCharacterized :
    (∀ hour start endH : Int, isQuiet hour start endH = true ↔
      ((start ≤ endH ∧ start ≤ hour ∧ hour < endH) ∨
        (endH < start ∧ (hour ≥ start ∨ hour < endH)))) ∧
    isQuiet 23 22 6 = true ∧ isQuiet 6 22 6 = false ∧ isQuiet 10 22 6 = false ∧
    isQuiet 3 1 5 = true ∧ isQuiet 6 1 5 = false := by
  refine ⟨?_, by decide, by decide, by decide, by decide, by decide⟩
  intro hour start endH
  unfold isQuiet
  split
  · next hle =>
    simp only [Bool.and_eq_true, decide_eq_true_eq]
    omega
  · next hgt =>
    simp only [Bool.or_eq_true, decide_eq_true_eq]
    omega

/-- Claim C6 (code bug): `getKarachiHour` returns the raw UTC hour plus 5
with no reduction modulo 24, so for UTC hours 19-23 the value exceeds 23 and
is not a valid hour of day; at UTC hour 20 (Karachi wall-clock hour 1) it
yields 25, so a quiet interval `[1, 5)` that is actually active is reported
inactive. -/
theorem getKarachiHourOutOfRange :
    getKarachiHour 20 = 25 ∧ ¬(getKarachiHour 20 ≤ 23) ∧
    isQuiet ((getKarachiHour 20 : Nat) : Int) 1 5 = false ∧
    isQuiet 1 1 5 = true := ⟨rfl, by decide, by decide, by decide⟩

/-- Claim C7: a `recordMessageForFlood` call stores a window that contains
the appended timestamp and nothing older than `now - windowMs`, and returns
exactly that window's length. -/
theorem recordMessageWindowInvariant (ws : Option Nat) (fm : FloodMap)
    (i : Identity) (now : Int) :
    now ∈ windowOf (recordMessageForFlood ws fm i now).1 i ∧
    (∀ t ∈ windowOf (recordMessageForFlood ws fm i now).1 i, now - windowMsOf ws < t) ∧
    (recordMessageForFlood ws fm i now).2 =
      (windowOf (recordMessageForFlood ws fm i now).1 i).length := by
  have hpos : (0 : Int) < windowMsOf ws := by
    unfold windowMsOf jsOrNat
    cases ws with
    | none => norm_num
    | some n =>
      dsimp only
      split
      · norm_num
      · next hn =>
        exact mul_pos (by exact_mod_cast Nat.pos_of_ne_zero hn) (by norm_num)
  have hwin : windowOf (recordMessageForFlood ws fm i now).1 i =
      ((lookupF fm i).getD [] ++ [now]).filter (fun t => decide (now - windowMsOf ws < t)) := by
    unfold recordMessageForFlood windowOf
    dsimp only
    rw [lookupF_setF_self]
    rfl
  refine ⟨?_, ?_, ?_⟩
  · rw [hwin, List.mem_filter]
    refine ⟨List.mem_append_right _ (by simp), ?_⟩
    simp only [decide_eq_true_eq]
    omega
  · intro t ht
    rw [hwin, List.mem_filter] at ht
    simpa using ht.2
  · rw [hwin]
    unfold recordMessageForFlood
    rfl

/-- Claim C8: a failed persist inside `addWarning` keeps the in-memory
increment and leaves the store untouched; the next successful mutation
writes the full ledger — earlier increment included — to the store. -/
theorem persistFailureKeepsIncrement (cfg : Config) (st : BotState)
    (i : Identity) (r1 r2 : List Char) :
    countFor (addWarning cfg false st i r1).1.warnings i = countFor st.warnings i + 1 ∧
    (addWarning cfg false st i r1).1.warnStore = st.warnStore ∧
    (addWarning cfg true (addWarning cfg false st i r1).1 i r2).1.warnStore =
      (addWarning cfg true (addWarning cfg false st i r1).1 i r2).1.warnings ∧
    countFor (addWarning cfg true (addWarning cfg false st i r1).1 i r2).1.warnStore i =
      countFor st.warnings i + 2 := by
  refine ⟨countFor_addWarning_self cfg false st i r1, rfl, rfl, ?_⟩
  have h1 := countFor_addWarning_self cfg true (addWarning cfg false st i r1).1 i r2
  have h2 := countFor_addWarning_self cfg false st i r1
  calc countFor (addWarning cfg true (addWarning cfg false st i r1).1 i r2).1.warnStore i
      = countFor (addWarning cfg true (addWarning cfg false st i r1).1 i r2).1.warnings i := rfl
    _ = countFor (addWarning cfg false st i r1).1.warnings i + 1 := h1
    _ = countFor st.warnings i + 1 + 1 := by rw [h2]

lemma allDigits_stripNonDigits (s : List Char) :
    ∀ c ∈ stripNonDigits s, c.isDigit = true := by
  intro c hc
  unfold stripNonDigits at hc
  exact (List.mem_filter.mp hc).2

lemma allDigits_rewriteTrunk (s : List Char) (h : ∀ c ∈ s, c.isDigit = true) :
    ∀ c ∈ rewriteTrunk s, c.isDigit = true := by
  intro c hc
  unfold rewriteTrunk at hc
  split at hc
  · rcases List.mem_cons.mp hc with h9 | hc2
    · subst h9
      decide
    · rcases List.mem_cons.mp hc2 with h2 | hc3
      · subst h2
        decide
      · exact h c (List.drop_subset 1 s hc3)
  · exact h c hc

lemma endsWithChars_canon_of_digits (l : List Char)
    (h : ∀ c ∈ l, c.isDigit = true) : endsWithChars canonSuffix l = false := by
  unfold endsWithChars
  rw [decide_eq_false_iff_not]
  intro he
  have hs : 's' ∈ l.reverse.take canonSuffix.length := by
    rw [he]
    decide
  have hmem : 's' ∈ l := List.mem_reverse.mp (List.take_subset _ _ hs)
  exact absurd (h 's' hmem) (by decide)

lemma normNumber_closedForm (s : List Char) :
    normNumber s = rewriteTrunk (stripNonDigits s) ++ canonSuffix := by
  unfold normNumber
  dsimp only
  rw [endsWithChars_canon_of_digits _ (allDigits_rewriteTrunk _ (allDigits_stripNonDigits s))]
  rfl

lemma stripNonDigits_digits_append (l : List Char)
    (h : ∀ c ∈ l, c.isDigit = true) : stripNonDigits (l ++ canonSuffix) = l := by
  unfold stripNonDigits
  rw [List.filter_append]
  have h1 : List.filter Char.isDigit l = l := List.filter_eq_self.mpr h
  have h2 : List.filter Char.isDigit canonSuffix = [] := by decide
  rw [h1, h2, List.append_nil]

lemma rewriteTrunk_idem (x : List Char) :
    rewriteTrunk (rewriteTrunk x) = rewriteTrunk x := by
  by_cases hc : x.length = 10 ∧ x.take 2 = ['0', '3']
  · have h1 : rewriteTrunk x = '9' :: '2' :: x.drop 1 := by
      unfold rewriteTrunk
      rw [if_pos hc]
    rw [h1]
    unfold rewriteTrunk
    rw [if_neg]
    rintro ⟨hl, _⟩
    rw [List.length_cons, List.length_cons, List.length_drop, hc.1] at hl
    omega
  · have h1 : rewriteTrunk x = x := by
      unfold rewriteTrunk
      rw [if_neg hc]
    rw [h1]
    exact h1

lemma endsWithChars_append (x suf : List Char) : endsWithChars suf (x ++ suf) = true := by
  unfold endsWithChars
  rw [decide_eq_true_eq]
  rw [List.reverse_append]
  have hlen : suf.length = suf.reverse.length := (List.length_reverse suf).symm
  rw [hlen, List.take_left]

/-- Claim C10: `normNumber` is idempotent and its result always ends with the
canonical suffix `@c.us`. -/
theorem normNumberIdempotentAndSuffixed (s : List Char) :
    normNumber (normNumber s) = normNumber s ∧
    endsWithChars canonSuffix (normNumber s) = true := by
  have hd : ∀ c ∈ rewriteTrunk (stripNonDigits s), c.isDigit = true :=
    allDigits_rewriteTrunk _ (allDigits_stripNonDigits s)
  constructor
  · rw [normNumber_closedForm s,
      normNumber_closedForm (rewriteTrunk (stripNonDigits s) ++ canonSuffix),
      stripNonDigits_digits_append _ hd, rewriteTrunk_idem]
  · rw [normNumber_closedForm s]
    exact endsWithChars_append _ _

/-- Claim C9: `normNumber` strips all non-digits, applies the 10-digit `03`
trunk rewrite (`92` replaces the leading `0`), and always appends the
canonical suffix (a digit string never already ends in it); consequently the
owner's `whitelist add 923001234567` stores `923001234567@c.us` in the
whitelist and a subsequent `whitelist list` reports the number with the
suffix stripped. -/
theorem normalizeWhitelistFlow :
    (∀ s : List Char, normNumber s = rewriteTrunk (stripNonDigits s) ++ canonSuffix) ∧
    (∀ s : List Char, (stripNonDigits s).length = 10 → (stripNonDigits s).take 2 = ['0', '3'] →
      normNumber s = ('9' :: '2' :: (stripNonDigits s).drop 1) ++ canonSuffix) ∧
    normNumber "923001234567".toList = "923001234567@c.us".toList ∧
    resAddC9.1.whitelist = ["923001234567@c.us".toList] ∧
    resAddC9.2 = [BotAction.sendText (addedText "923001234567@c.us".toList)] ∧
    resListC9.2 = [BotAction.sendText ("📋 Whitelist users:\n923001234567".toList)] := by
  refine ⟨normNumber_closedForm, ?_, by decide, by decide, by decide, by decide⟩
  intro s h1 h2
  rw [normNumber_closedForm s]
  unfold rewriteTrunk
  rw [if_pos ⟨h1, h2⟩]

/-- Witness for `normalizeWhitelistFlow` at the 10-digit trunk-prefixed
input `0300123456`. -/
theorem normalizeWhitelistFlowWitness :
    (stripNonDigits "0300123456".toList).length = 10 ∧
    (stripNonDigits "0300123456".toList).take 2 = ['0', '3'] ∧
    normNumber "0300123456".toList =
      ('9' :: '2' :: (stripNonDigits "0300123456".toList).drop 1) ++ canonSuffix :=
  ⟨by decide, by decide,
    normalizeWhitelistFlow.2.1 "0300123456".toList (by decide) (by decide)⟩

/-- A command-shaped message from a non-owner sender. -/
def msgC4 : Msg :=
  { mFrom := "1203630@g.us".toList, author := some senderC2,
    body := "!warnreset".toList, mtype := "chat".toList, hasMedia := false }

/-- Witness for `nonOwnerCommandsIgnored`: a non-owner's `!warnreset` leaves
the whitelist unchanged and emits no administrative action. -/
theorem nonOwnerCommandsIgnoredWitness :
    senderOf msgC4 ≠ ownerId cfgC9 ∧
    (handleMessage cfgC9 true st0 msgC4 0 0).1.whitelist = st0.whitelist ∧
    (∀ a ∈ (handleMessage cfgC9 true st0 msgC4 0 0).2, isCmdAct a = false) :=
  ⟨by decide,
    (nonOwnerCommandsIgnored cfgC9 true st0 msgC4 0 0 (by decide)).1,
    (nonOwnerCommandsIgnored cfgC9 true st0 msgC4 0 0 (by decide)).2.2.2⟩

/-- State whose whitelist holds `wSenderC1` and nothing else. -/
def stW1 : BotState := { st0 with whitelist := [wSenderC1] }

/-- Witness for `ownerWhitelistWarnOnlyFlood`: a whitelisted sender under a
configuration with flood control disabled receives no warn at all. -/
theorem ownerWhitelistWarnOnlyFloodWitness :
    (senderOf msgC1 ∈ stW1.whitelist ∨ senderOf msgC1 = ownerId cfgC9) ∧
    ¬(startsBang (trim msgC1.body) = true ∧ senderOf msgC1 = ownerId cfgC9) ∧
    (floodOff cfgC9 = true →
      ∀ a ∈ (handleMessage cfgC9 true stW1 msgC1 0 0).2, isWarnAct a = false) :=
  ⟨by decide, by decide,
    (ownerWhitelistWarnOnlyFlood cfgC9 true stW1 msgC1 0 0 (by decide) (by decide)).2⟩

/-- Witness for `recordMessageWindowInvariant` at a concrete input. -/
theorem recordMessageWindowInvariantWitness :
    (0 : Int) ∈ windowOf (recordMessageForFlood (some 10) [] senderC2 0).1 senderC2 ∧
    (recordMessageForFlood (some 10) [] senderC2 0).2 =
      (windowOf (recordMessageForFlood (some 10) [] senderC2 0).1 senderC2).length :=
  ⟨(recordMessageWindowInvariant (some 10) [] senderC2 0).1,
    (recordMessageWindowInvariant (some 10) [] senderC2 0).2.2⟩

